import Mathlib

/-!
Shallow embedding of the gravity-wells simulator (Rust sources
`src/physics.rs`, `src/simulation.rs`, `src/image_gen.rs`, `src/config.rs`,
and the three-body example `example/lib.rs`).  The `f32` arithmetic of the
source is modelled by exact real arithmetic; loops are modelled by
structural recursion on explicit fuel, faithful to the source's control
flow (early return on collision, outer/inner loop nesting, state guarded
live stepping).
-/

namespace GravityWells

noncomputable section

/-- The 2D vector type of `physics.rs` (`Vec2 { x: f32, y: f32 }`). -/
@[ext]
structure Vec2 where
  x : ℝ
  y : ℝ

instance : Add Vec2 := ⟨fun a b => ⟨a.x + b.x, a.y + b.y⟩⟩

instance : Sub Vec2 := ⟨fun a b => ⟨a.x - b.x, a.y - b.y⟩⟩

/-- Scalar multiplication `v * c` of `impl Mul<f32> for Vec2`. -/
def Vec2.smul (v : Vec2) (c : ℝ) : Vec2 := ⟨v.x * c, v.y * c⟩

/-- Scalar division `v / c` of `impl Div<f32> for Vec2`. -/
def Vec2.sdiv (v : Vec2) (c : ℝ) : Vec2 := ⟨v.x / c, v.y / c⟩

/-- Source `Vec2::length`: `(x*x + y*y).sqrt()`. -/
def Vec2.length (v : Vec2) : ℝ := Real.sqrt (v.x * v.x + v.y * v.y)

/-- Source `Vec2::normalize`: divides by the length when it is non-zero, and
returns the zero vector otherwise. -/
def Vec2.normalize (v : Vec2) : Vec2 :=
  if v.length ≠ 0 then ⟨v.x / v.length, v.y / v.length⟩ else ⟨0, 0⟩

/-- Source `Vec2::distance`: `(*self - *other).length()`. -/
def Vec2.distance (a b : Vec2) : ℝ := (a - b).length

/-- Source `physics.rs`: `pub const G: f32 = 100.0`. -/
def G : ℝ := 100

/-- Source `physics.rs` `StationaryBody` (a fixed gravity well). -/
structure StationaryBody where
  pos : Vec2
  mass : ℝ
  radius : ℝ
  color : ℕ × ℕ × ℕ

/-- Source `physics.rs` `TestParticle`. -/
@[ext]
structure TestParticle where
  pos : Vec2
  vel : Vec2
  mass : ℝ
  radius : ℝ

/-- Source `calculate_gravitational_force`: zero at zero separation, otherwise
`G * m * M / dist²` along the normalized direction from the particle to
the body. -/
def calculate_gravitational_force (particle : TestParticle)
    (stationary_body : StationaryBody) : Vec2 :=
  let dir := stationary_body.pos - particle.pos
  let dist := dir.length
  if dist = 0 then ⟨0, 0⟩
  else Vec2.smul dir.normalize (G * particle.mass * stationary_body.mass / (dist * dist))

/-- Source `calculate_acceleration`: sum of the forces over the body list in
order, divided by the particle's mass. -/
def calculate_acceleration (particle : TestParticle)
    (stationary_bodies : List StationaryBody) : Vec2 :=
  (stationary_bodies.foldl
    (fun total_force body => total_force + calculate_gravitational_force particle body)
    ⟨0, 0⟩).sdiv particle.mass

/-- Source `update_particle_euler`: explicit Euler step; the velocity is updated
first and the position update uses the updated velocity. -/
def update_particle_euler (particle : TestParticle)
    (stationary_bodies : List StationaryBody) (dt : ℝ) : TestParticle :=
  let acceleration := calculate_acceleration particle stationary_bodies
  let vel := particle.vel + Vec2.smul acceleration dt
  let pos := particle.pos + Vec2.smul vel dt
  { particle with vel := vel, pos := pos }

/-- Source `update_particle_rk4`: classical RK4 step, each stage evaluated on a
temporary particle built from the original pre-step state. -/
def update_particle_rk4 (particle : TestParticle)
    (stationary_bodies : List StationaryBody) (dt : ℝ) : TestParticle :=
  let original := particle
  let k1_vel := Vec2.smul (calculate_acceleration original stationary_bodies) dt
  let k1_pos := Vec2.smul original.vel dt
  let temp2 : TestParticle :=
    { original with pos := original.pos + Vec2.smul k1_pos 0.5,
                    vel := original.vel + Vec2.smul k1_vel 0.5 }
  let k2_vel := Vec2.smul (calculate_acceleration temp2 stationary_bodies) dt
  let k2_pos := Vec2.smul temp2.vel dt
  let temp3 : TestParticle :=
    { original with pos := original.pos + Vec2.smul k2_pos 0.5,
                    vel := original.vel + Vec2.smul k2_vel 0.5 }
  let k3_vel := Vec2.smul (calculate_acceleration temp3 stationary_bodies) dt
  let k3_pos := Vec2.smul temp3.vel dt
  let temp4 : TestParticle :=
    { original with pos := original.pos + k3_pos,
                    vel := original.vel + k3_vel }
  let k4_vel := Vec2.smul (calculate_acceleration temp4 stationary_bodies) dt
  let k4_pos := Vec2.smul temp4.vel dt
  { particle with
      vel := particle.vel +
        Vec2.sdiv (k1_vel + Vec2.smul k2_vel 2 + Vec2.smul k3_vel 2 + k4_vel) 6,
      pos := particle.pos +
        Vec2.sdiv (k1_pos + Vec2.smul k2_pos 2 + Vec2.smul k3_pos 2 + k4_pos) 6 }

/-- Source `check_collision`: first index (in list order) whose body's
center-to-center distance from the particle is strictly below the
threshold, `none` if no body qualifies. -/
def check_collision (particle : TestParticle) (stationary_bodies : List StationaryBody)
    (collision_threshold : ℝ) : Option ℕ :=
  match stationary_bodies with
  | [] => none
  | body :: rest =>
      if particle.pos.distance body.pos < collision_threshold then some 0
      else (check_collision particle rest collision_threshold).map (· + 1)

/-- Source `simulation.rs`: `SIMULATION_TIMESTEPS = 2000`. -/
def SIMULATION_TIMESTEPS : ℕ := 2000

/-- Source `simulation.rs`: `SUBSTEPS = 10`. -/
def SUBSTEPS : ℕ := 10

/-- Source `simulation.rs`: `TEST_PARTICLE_MASS = 1.0`. -/
def TEST_PARTICLE_MASS : ℝ := 1

/-- Source `simulation.rs`: `TEST_PARTICLE_RADIUS = 1.0`. -/
def TEST_PARTICLE_RADIUS : ℝ := 1

/-- Source `simulation.rs`: `COLLISION_THRESHOLD = 15.0`. -/
def COLLISION_THRESHOLD : ℝ := 15

/-- Source `simulation.rs` `IntegrationMethod`. -/
inductive IntegrationMethod where
  | euler
  | rungeKutta4

/-- One integration substep dispatched on the method (the `match` that
every simulation loop of `simulation.rs` performs). -/
def applyIntegration (method : IntegrationMethod) (particle : TestParticle)
    (stationary_bodies : List StationaryBody) (dt : ℝ) : TestParticle :=
  match method with
  | .euler => update_particle_euler particle stationary_bodies dt
  | .rungeKutta4 => update_particle_rk4 particle stationary_bodies dt

/-- The substep size `0.016 / SUBSTEPS as f32` used by every driver in
`simulation.rs`. -/
def simDt : ℝ := 0.016 / (SUBSTEPS : ℝ)

/-- The particle every driver builds:
`TestParticle::new(start_pos, initial_velocity, TEST_PARTICLE_MASS, TEST_PARTICLE_RADIUS)`. -/
def mkTestParticle (start_pos initial_velocity : Vec2) : TestParticle :=
  ⟨start_pos, initial_velocity, TEST_PARTICLE_MASS, TEST_PARTICLE_RADIUS⟩

/-- The particle after `k` raw integration substeps (no collision checks),
the reference trace of the substep loops. -/
def particleAfter (method : IntegrationMethod) (stationary_bodies : List StationaryBody)
    (dt : ℝ) : ℕ → TestParticle → TestParticle
  | 0, p => p
  | k + 1, p =>
      particleAfter method stationary_bodies dt k
        (applyIntegration method p stationary_bodies dt)

/-- The inner substep loop shared by all three drivers of `simulation.rs`:
integrate one substep, test collision, stop at the first substep whose
post-integration state collides.  Returns the particle where the loop
stopped and the collision index, if any. -/
def runSubstepsAux (method : IntegrationMethod) (stationary_bodies : List StationaryBody)
    (dt : ℝ) : ℕ → TestParticle → TestParticle × Option ℕ
  | 0, p => (p, none)
  | n + 1, p =>
      let q := applyIntegration method p stationary_bodies dt
      match check_collision q stationary_bodies COLLISION_THRESHOLD with
      | some i => (q, some i)
      | none => runSubstepsAux method stationary_bodies dt n q

/-- The outer loop of `run_simulation_with_time`, with the fuel (remaining
outer timesteps) and the current outer timestep index explicit. -/
def runOuterAux (method : IntegrationMethod) (stationary_bodies : List StationaryBody)
    (dt : ℝ) : ℕ → ℕ → TestParticle → Option (ℕ × ℕ)
  | 0, _, _ => none
  | n + 1, timestep, p =>
      match runSubstepsAux method stationary_bodies dt SUBSTEPS p with
      | (_, some i) => some (i, timestep)
      | (q, none) => runOuterAux method stationary_bodies dt n (timestep + 1) q

/-- The outer loop of `run_simulation` (identical to `runOuterAux` except
that it does not track the timestep index). -/
def runOuterAuxSimple (method : IntegrationMethod) (stationary_bodies : List StationaryBody)
    (dt : ℝ) : ℕ → TestParticle → Option ℕ
  | 0, _ => none
  | n + 1, p =>
      match runSubstepsAux method stationary_bodies dt SUBSTEPS p with
      | (_, some i) => some i
      | (q, none) => runOuterAuxSimple method stationary_bodies dt n q

/-- Source `simulation.rs` `run_simulation`. -/
def run_simulation (start_pos initial_velocity : Vec2)
    (stationary_bodies : List StationaryBody) (method : IntegrationMethod) : Option ℕ :=
  runOuterAuxSimple method stationary_bodies simDt SIMULATION_TIMESTEPS
    (mkTestParticle start_pos initial_velocity)

/-- Source `simulation.rs` `run_simulation_with_time`. -/
def run_simulation_with_time (start_pos initial_velocity : Vec2)
    (stationary_bodies : List StationaryBody) (method : IntegrationMethod) :
    Option (ℕ × ℕ) :=
  runOuterAux method stationary_bodies simDt SIMULATION_TIMESTEPS 0
    (mkTestParticle start_pos initial_velocity)

/-- The reference substep trace of a run: the particle after `k`
integration substeps starting from the driver's initial particle. -/
def traceParticle (start_pos initial_velocity : Vec2)
    (stationary_bodies : List StationaryBody) (method : IntegrationMethod)
    (k : ℕ) : TestParticle :=
  particleAfter method stationary_bodies simDt k (mkTestParticle start_pos initial_velocity)

/-- Source `simulation.rs` `LiveSimulationState`. -/
structure LiveSimulationState where
  particle : TestParticle
  stationary_bodies : List StationaryBody
  trajectory_history : List Vec2
  current_timestep : ℕ
  collision_body_index : Option ℕ
  integration_method : IntegrationMethod

/-- Source `LiveSimulationState::new`. -/
def LiveSimulationState.new (start_pos initial_velocity : Vec2)
    (stationary_bodies : List StationaryBody) (integration_method : IntegrationMethod) :
    LiveSimulationState :=
  { particle := mkTestParticle start_pos initial_velocity,
    stationary_bodies := stationary_bodies,
    trajectory_history := [start_pos],
    current_timestep := 0,
    collision_body_index := none,
    integration_method := integration_method }

/-- Source `LiveSimulationState::step`: one outer timestep's worth of substeps with
early exit on collision, then the trajectory sampling (every 5th outer
timestep) and the timestep increment; a no-op once out of budget or
collided. -/
def LiveSimulationState.step (s : LiveSimulationState) : LiveSimulationState :=
  if s.current_timestep < SIMULATION_TIMESTEPS ∧ s.collision_body_index = none then
    let r := runSubstepsAux s.integration_method s.stationary_bodies simDt SUBSTEPS s.particle
    let hist :=
      if s.current_timestep % 5 = 0 then s.trajectory_history ++ [r.1.pos]
      else s.trajectory_history
    { s with particle := r.1,
             collision_body_index := r.2,
             trajectory_history := hist,
             current_timestep := s.current_timestep + 1 }
  else s

/-- Source `LiveSimulationState::is_finished`. -/
def LiveSimulationState.is_finished (s : LiveSimulationState) : Bool :=
  s.collision_body_index.isSome || decide (SIMULATION_TIMESTEPS ≤ s.current_timestep)

/-- Source `config.rs`: `IMAGE_SIZE = 600`. -/
def IMAGE_SIZE : ℕ := 600

/-- The pixel-to-world transform of `generate_gravity_wells_image`:
`px = i % IMAGE_SIZE`, `py = i / IMAGE_SIZE`, world =
`(px / zoom - camera.x, py / zoom - camera.y)`. -/
def pixelWorldPos (i : ℕ) (zoom_factor : ℝ) (camera_offset : Vec2) : Vec2 :=
  ⟨((i % IMAGE_SIZE : ℕ) : ℝ) / zoom_factor - camera_offset.x,
   ((i / IMAGE_SIZE : ℕ) : ℝ) / zoom_factor - camera_offset.y⟩

/-- The per-cell outcomes that the parallel sweep of
`generate_gravity_wells_image` records: for each pixel index, the result of
`run_simulation_with_time` on that cell's world position.  Each cell is a
pure function of its own index, which is what makes the rayon
parallelization of the source safe. -/
def sweepOutcomes (stationary_bodies : List StationaryBody) (initial_velocity : Vec2)
    (camera_offset : Vec2) (zoom_factor : ℝ) (method : IntegrationMethod) :
    List (Option (ℕ × ℕ)) :=
  (List.range (IMAGE_SIZE * IMAGE_SIZE)).map fun i =>
    run_simulation_with_time (pixelWorldPos i zoom_factor camera_offset)
      initial_velocity stationary_bodies method

namespace ThreeBody

/-- Source `example/lib.rs`: `pub const G: f32 = 1.0`. -/
def G : ℝ := 1

/-- Source `example/lib.rs` `GravBody`. -/
structure GravBody where
  pos : Vec2
  vel : Vec2
  mass : ℝ
  radius : ℝ

/-- Source `example/lib.rs` `GravBody::grav_force`: same force law as
`calculate_gravitational_force` with the example scenario's `G = 1`. -/
def GravBody.grav_force (self other : GravBody) : Vec2 :=
  let dir := other.pos - self.pos
  let dist := dir.length
  if dist = 0 then ⟨0, 0⟩
  else Vec2.smul dir.normalize (G * self.mass * other.mass / (dist * dist))

end ThreeBody

end

/-! Component lemmas for the vector operations. -/

@[simp]
theorem Vec2.add_x (a b : Vec2) : (a + b).x = a.x + b.x := rfl

@[simp]
theorem Vec2.add_y (a b : Vec2) : (a + b).y = a.y + b.y := rfl

@[simp]
theorem Vec2.sub_x (a b : Vec2) : (a - b).x = a.x - b.x := rfl

@[simp]
theorem Vec2.sub_y (a b : Vec2) : (a - b).y = a.y - b.y := rfl

@[simp]
theorem Vec2.smul_x (v : Vec2) (c : ℝ) : (Vec2.smul v c).x = v.x * c := rfl

@[simp]
theorem Vec2.smul_y (v : Vec2) (c : ℝ) : (Vec2.smul v c).y = v.y * c := rfl

@[simp]
theorem Vec2.sdiv_x (v : Vec2) (c : ℝ) : (Vec2.sdiv v c).x = v.x / c := rfl

@[simp]
theorem Vec2.sdiv_y (v : Vec2) (c : ℝ) : (Vec2.sdiv v c).y = v.y / c := rfl

/-! Length, normalization and distance facts. -/

theorem Vec2.length_nonneg (v : Vec2) : 0 ≤ v.length := Real.sqrt_nonneg _

theorem Vec2.length_eq_zero_iff (v : Vec2) : v.length = 0 ↔ v = ⟨0, 0⟩ := by
  unfold Vec2.length
  constructor
  · intro h
    have h0 : v.x * v.x + v.y * v.y = 0 := by
      have := Real.sqrt_eq_zero (add_nonneg (mul_self_nonneg v.x) (mul_self_nonneg v.y))
      exact this.mp h
    have hx : v.x = 0 := by nlinarith [mul_self_nonneg v.x, mul_self_nonneg v.y]
    have hy : v.y = 0 := by nlinarith [mul_self_nonneg v.x, mul_self_nonneg v.y]
    exact Vec2.ext hx hy
  · rintro rfl
    simp

@[simp]
theorem Vec2.length_zero : (⟨0, 0⟩ : Vec2).length = 0 := by
  simp [Vec2.length]

theorem Vec2.normalize_zero : Vec2.normalize ⟨0, 0⟩ = ⟨0, 0⟩ := by
  simp [Vec2.normalize]

theorem Vec2.length_normalize (v : Vec2) (h : v ≠ ⟨0, 0⟩) : v.normalize.length = 1 := by
  have hl : v.length ≠ 0 := fun h0 => h ((Vec2.length_eq_zero_iff v).1 h0)
  have hs0 : (0 : ℝ) ≤ v.x * v.x + v.y * v.y :=
    add_nonneg (mul_self_nonneg v.x) (mul_self_nonneg v.y)
  have hss : Real.sqrt (v.x * v.x + v.y * v.y) * Real.sqrt (v.x * v.x + v.y * v.y)
      = v.x * v.x + v.y * v.y := Real.mul_self_sqrt hs0
  have hsne : v.x * v.x + v.y * v.y ≠ 0 := by
    intro hz
    exact hl (by simp [Vec2.length, hz])
  unfold Vec2.normalize
  rw [if_pos hl]
  unfold Vec2.length at hl ⊢
  have harg : v.x / Real.sqrt (v.x * v.x + v.y * v.y) * (v.x / Real.sqrt (v.x * v.x + v.y * v.y))
      + v.y / Real.sqrt (v.x * v.x + v.y * v.y) * (v.y / Real.sqrt (v.x * v.x + v.y * v.y))
      = (v.x * v.x + v.y * v.y)
        / (Real.sqrt (v.x * v.x + v.y * v.y) * Real.sqrt (v.x * v.x + v.y * v.y)) := by
    ring
  simp only [harg, hss, div_self hsne, Real.sqrt_one]

theorem Vec2.length_smul (v : Vec2) (c : ℝ) : (Vec2.smul v c).length = |c| * v.length := by
  unfold Vec2.smul Vec2.length
  rw [show v.x * c * (v.x * c) + v.y * c * (v.y * c) = c * c * (v.x * v.x + v.y * v.y) by ring,
    Real.sqrt_mul (mul_self_nonneg c), Real.sqrt_mul_self_eq_abs]

@[simp]
theorem Vec2.distance_self (a : Vec2) : a.distance a = 0 := by
  have : a - a = (⟨0, 0⟩ : Vec2) := by
    apply Vec2.ext <;> simp
  simp [Vec2.distance, this]

/-! Characterization of the collision predicate. -/

theorem check_collision_none_iff (p : TestParticle) (B : List StationaryBody) (thr : ℝ) :
    check_collision p B thr = none ↔ ∀ b ∈ B, ¬ p.pos.distance b.pos < thr := by
  induction B with
  | nil => simp [check_collision]
  | cons b rest ih =>
    by_cases h : p.pos.distance b.pos < thr
    · simp [check_collision, h]
    · simp only [check_collision, if_neg h, Option.map_eq_none', ih]
      constructor
      · intro hrest b' hb'
        rcases List.mem_cons.1 hb' with rfl | hb'
        · exact h
        · exact hrest b' hb'
      · intro hall b' hb'
        exact hall b' (List.mem_cons_of_mem _ hb')

theorem check_collision_some_iff (p : TestParticle) (B : List StationaryBody) (thr : ℝ)
    (i : ℕ) :
    check_collision p B thr = some i ↔
      (∃ b, B[i]? = some b ∧ p.pos.distance b.pos < thr) ∧
      ∀ j, j < i → ∀ b, B[j]? = some b → ¬ p.pos.distance b.pos < thr := by
  induction B generalizing i with
  | nil => simp [check_collision]
  | cons b rest ih =>
    by_cases h : p.pos.distance b.pos < thr
    · simp only [check_collision, if_pos h]
      constructor
      · intro h0
        have hi : i = 0 := (Option.some.inj h0).symm
        subst hi
        exact ⟨⟨b, by simp, h⟩, fun j hj => absurd hj (Nat.not_lt_zero j)⟩
      · rintro ⟨⟨b', hb', hd'⟩, hmin⟩
        rcases Nat.eq_zero_or_pos i with hi | hi
        · subst hi; rfl
        · exact absurd h (hmin 0 hi b (by simp))
    · simp only [check_collision, if_neg h, Option.map_eq_some']
      constructor
      · rintro ⟨i', hi', rfl⟩
        rcases (ih i').1 hi' with ⟨⟨b', hb', hd'⟩, hmin⟩
        refine ⟨⟨b', by simpa using hb', hd'⟩, ?_⟩
        intro j hj b'' hb''
        match j, hb'' with
        | 0, hb'' =>
          have hb : b = b'' := by simpa using hb''
          subst hb
          exact h
        | j' + 1, hb'' => exact hmin j' (by omega) b'' (by simpa using hb'')
      · rintro ⟨⟨b', hb', hd'⟩, hmin⟩
        match i, hb' with
        | 0, hb' =>
          have hb : b = b' := by simpa using hb'
          subst hb
          exact absurd hd' h
        | i' + 1, hb' =>
          refine ⟨i', (ih i').2 ⟨⟨b', by simpa using hb', hd'⟩, ?_⟩, rfl⟩
          intro j hj b'' hb''
          exact hmin (j + 1) (by omega) b'' (by simpa using hb'')

theorem check_collision_some_lt (p : TestParticle) (B : List StationaryBody) (thr : ℝ)
    (i : ℕ) (h : check_collision p B thr = some i) : i < B.length := by
  rcases ((check_collision_some_iff p B thr i).1 h).1 with ⟨b, hb, _⟩
  exact (List.getElem?_eq_some.1 hb).1

/-! Unfolding lemmas for the substep trace. -/

@[simp]
theorem particleAfter_zero (m : IntegrationMethod) (B : List StationaryBody) (dt : ℝ)
    (p : TestParticle) : particleAfter m B dt 0 p = p := rfl

theorem particleAfter_succ (m : IntegrationMethod) (B : List StationaryBody) (dt : ℝ)
    (k : ℕ) (p : TestParticle) :
    particleAfter m B dt (k + 1) p = particleAfter m B dt k (applyIntegration m p B dt) := rfl

theorem particleAfter_add (m : IntegrationMethod) (B : List StationaryBody) (dt : ℝ)
    (l k : ℕ) (p : TestParticle) :
    particleAfter m B dt k (particleAfter m B dt l p) = particleAfter m B dt (k + l) p := by
  induction l generalizing p with
  | zero => rfl
  | succ l ih =>
    rw [particleAfter_succ]
    rw [ih (applyIntegration m p B dt)]
    rfl

/-! Characterization of the inner substep loop: it integrates one substep at
a time, checks collision after each, and stops at the first substep whose
post-integration state collides. -/

theorem runSubstepsAux_eq_none_iff (m : IntegrationMethod) (B : List StationaryBody)
    (dt : ℝ) (n : ℕ) (p q : TestParticle) :
    runSubstepsAux m B dt n p = (q, none) ↔
      q = particleAfter m B dt n p ∧
      ∀ j, j < n →
        check_collision (particleAfter m B dt (j + 1) p) B COLLISION_THRESHOLD = none := by
  induction n generalizing p with
  | zero =>
    simp only [runSubstepsAux, particleAfter_zero, Prod.mk.injEq, and_true]
    constructor
    · intro h
      exact ⟨h.symm, fun j hj => absurd hj (Nat.not_lt_zero j)⟩
    · rintro ⟨h, -⟩
      exact h.symm
  | succ n ih =>
    cases hc : check_collision (applyIntegration m p B dt) B COLLISION_THRESHOLD with
    | some i =>
      have hL : runSubstepsAux m B dt (n + 1) p = (applyIntegration m p B dt, some i) := by
        simp [runSubstepsAux, hc]
      rw [hL]
      constructor
      · intro h
        exact absurd (congrArg Prod.snd h) (by simp)
      · rintro ⟨-, hall⟩
        have h0 := hall 0 (Nat.succ_pos n)
        rw [show particleAfter m B dt (0 + 1) p = applyIntegration m p B dt from rfl] at h0
        exact absurd (h0.symm.trans hc) (by simp)
    | none =>
      have hL : runSubstepsAux m B dt (n + 1) p
          = runSubstepsAux m B dt n (applyIntegration m p B dt) := by
        simp [runSubstepsAux, hc]
      rw [hL, ih]
      constructor
      · rintro ⟨hq, hall⟩
        refine ⟨by rw [particleAfter_succ]; exact hq, ?_⟩
        intro j hj
        cases j with
        | zero => rw [show particleAfter m B dt (0 + 1) p = applyIntegration m p B dt from rfl]; exact hc
        | succ j' =>
          rw [particleAfter_succ]
          exact hall j' (by omega)
      · rintro ⟨hq, hall⟩
        refine ⟨by rw [particleAfter_succ] at hq; exact hq, ?_⟩
        intro j hj
        have := hall (j + 1) (by omega)
        rw [particleAfter_succ] at this
        exact this

theorem runSubstepsAux_eq_some_iff (m : IntegrationMethod) (B : List StationaryBody)
    (dt : ℝ) (n : ℕ) (p q : TestParticle) (i : ℕ) :
    runSubstepsAux m B dt n p = (q, some i) ↔
      ∃ j, j < n ∧
        check_collision (particleAfter m B dt (j + 1) p) B COLLISION_THRESHOLD = some i ∧
        q = particleAfter m B dt (j + 1) p ∧
        ∀ j', j' < j →
          check_collision (particleAfter m B dt (j' + 1) p) B COLLISION_THRESHOLD = none := by
  induction n generalizing p with
  | zero =>
    simp only [runSubstepsAux]
    constructor
    · intro h
      exact absurd (congrArg Prod.snd h) (by simp)
    · rintro ⟨j, hj, -⟩
      exact absurd hj (Nat.not_lt_zero j)
  | succ n ih =>
    cases hc : check_collision (applyIntegration m p B dt) B COLLISION_THRESHOLD with
    | some i0 =>
      have hL : runSubstepsAux m B dt (n + 1) p = (applyIntegration m p B dt, some i0) := by
        simp [runSubstepsAux, hc]
      rw [hL]
      constructor
      · intro h
        have hq : applyIntegration m p B dt = q := congrArg Prod.fst h
        have hi : some i0 = some i := congrArg Prod.snd h
        refine ⟨0, Nat.succ_pos n, ?_, ?_, fun j' hj' => absurd hj' (Nat.not_lt_zero j')⟩
        · rw [show particleAfter m B dt (0 + 1) p = applyIntegration m p B dt from rfl, hc]
          exact hi
        · rw [show particleAfter m B dt (0 + 1) p = applyIntegration m p B dt from rfl]
          exact hq.symm
      · rintro ⟨j, hj, hchk, hq, hpre⟩
        cases j with
        | zero =>
          rw [show particleAfter m B dt (0 + 1) p = applyIntegration m p B dt from rfl] at hchk hq
          rw [hq, hc.symm.trans hchk]
        | succ j' =>
          have h0 := hpre 0 (Nat.succ_pos j')
          rw [show particleAfter m B dt (0 + 1) p = applyIntegration m p B dt from rfl] at h0
          exact absurd (h0.symm.trans hc) (by simp)
    | none =>
      have hL : runSubstepsAux m B dt (n + 1) p
          = runSubstepsAux m B dt n (applyIntegration m p B dt) := by
        simp [runSubstepsAux, hc]
      rw [hL, ih]
      constructor
      · rintro ⟨j, hj, hchk, hq, hpre⟩
        refine ⟨j + 1, by omega, ?_, ?_, ?_⟩
        · rw [particleAfter_succ]; exact hchk
        · rw [particleAfter_succ]; exact hq
        · intro j' hj'
          cases j' with
          | zero =>
            rw [show particleAfter m B dt (0 + 1) p = applyIntegration m p B dt from rfl]
            exact hc
          | succ j'' =>
            rw [particleAfter_succ]
            exact hpre j'' (by omega)
      · rintro ⟨j, hj, hchk, hq, hpre⟩
        cases j with
        | zero =>
          rw [show particleAfter m B dt (0 + 1) p = applyIntegration m p B dt from rfl] at hchk
          exact absurd (hc.symm.trans hchk) (by simp)
        | succ j' =>
          refine ⟨j', by omega, ?_, ?_, ?_⟩
          · rw [particleAfter_succ] at hchk; exact hchk
          · rw [particleAfter_succ] at hq; exact hq
          · intro j'' hj''
            have := hpre (j'' + 1) (by omega)
            rw [particleAfter_succ] at this
            exact this

/-! Characterization of the outer loop of `run_simulation_with_time`:
the first colliding substep over the whole run decides the outcome, and the
reported time is that substep's outer timestep index. -/

theorem runOuterAux_eq_none_iff (m : IntegrationMethod) (B : List StationaryBody)
    (dt : ℝ) (n t : ℕ) (p : TestParticle) :
    runOuterAux m B dt n t p = none ↔
      ∀ j, j < n * SUBSTEPS →
        check_collision (particleAfter m B dt (j + 1) p) B COLLISION_THRESHOLD = none := by
  simp only [SUBSTEPS]
  induction n generalizing t p with
  | zero => simp [runOuterAux]
  | succ n ih =>
    cases hr : runSubstepsAux m B dt 10 p with
    | mk q r =>
      cases r with
      | some i =>
        have hL : runOuterAux m B dt (n + 1) t p = some (i, t) := by
          simp only [runOuterAux, SUBSTEPS]
          rw [hr]
        rw [hL]
        rcases (runSubstepsAux_eq_some_iff m B dt 10 p q i).1 hr with ⟨j0, hj0, hchk0, -, -⟩
        constructor
        · intro h
          exact absurd h (by simp)
        · intro hall
          exact absurd ((hall j0 (by omega)).symm.trans hchk0) (by simp)
      | none =>
        have hL : runOuterAux m B dt (n + 1) t p = runOuterAux m B dt n (t + 1) q := by
          simp only [runOuterAux, SUBSTEPS]
          rw [hr]
        rcases (runSubstepsAux_eq_none_iff m B dt 10 p q).1 hr with ⟨hq, hpre⟩
        subst hq
        rw [hL, ih (t + 1)]
        constructor
        · intro hrest j hj
          by_cases hcase : j < 10
          · exact hpre j hcase
          · have := hrest (j - 10) (by omega)
            rw [particleAfter_add] at this
            rw [show j - 10 + 1 + 10 = j + 1 from by omega] at this
            exact this
        · intro hall j hj
          rw [particleAfter_add, show j + 1 + 10 = (j + 10) + 1 from by omega]
          exact hall (j + 10) (by omega)

theorem runOuterAux_eq_some_iff (m : IntegrationMethod) (B : List StationaryBody)
    (dt : ℝ) (n t : ℕ) (p : TestParticle) (i tc : ℕ) :
    runOuterAux m B dt n t p = some (i, tc) ↔
      ∃ j, j < n * SUBSTEPS ∧
        check_collision (particleAfter m B dt (j + 1) p) B COLLISION_THRESHOLD = some i ∧
        tc = t + j / SUBSTEPS ∧
        ∀ j', j' < j →
          check_collision (particleAfter m B dt (j' + 1) p) B COLLISION_THRESHOLD = none := by
  simp only [SUBSTEPS]
  induction n generalizing t p with
  | zero => simp [runOuterAux]
  | succ n ih =>
    cases hr : runSubstepsAux m B dt 10 p with
    | mk q r =>
      cases r with
      | some i0 =>
        have hL : runOuterAux m B dt (n + 1) t p = some (i0, t) := by
          simp only [runOuterAux, SUBSTEPS]
          rw [hr]
        rw [hL]
        rcases (runSubstepsAux_eq_some_iff m B dt 10 p q i0).1 hr with ⟨j0, hj0, hchk0, hq0, hpre0⟩
        constructor
        · intro h
          have hi : i0 = i := congrArg Prod.fst (Option.some.inj h)
          have htc : t = tc := congrArg Prod.snd (Option.some.inj h)
          subst hi
          refine ⟨j0, by omega, hchk0, by omega, hpre0⟩
        · rintro ⟨j, hj, hchk, htc, hpre⟩
          have hjlt : j < 10 := by
            by_contra hge
            exact absurd ((hpre j0 (by omega)).symm.trans hchk0) (by simp)
          have hjj0 : j = j0 := by
            rcases lt_trichotomy j j0 with hlt | heq | hgt
            · exact absurd ((hpre0 j hlt).symm.trans hchk) (by simp)
            · exact heq
            · exact absurd ((hpre j0 hgt).symm.trans hchk0) (by simp)
          subst hjj0
          have hii : i0 = i := Option.some.inj (hchk0.symm.trans hchk)
          have htct : tc = t := by omega
          rw [hii, htct]
      | none =>
        have hL : runOuterAux m B dt (n + 1) t p = runOuterAux m B dt n (t + 1) q := by
          simp only [runOuterAux, SUBSTEPS]
          rw [hr]
        rcases (runSubstepsAux_eq_none_iff m B dt 10 p q).1 hr with ⟨hq, hpre⟩
        subst hq
        rw [hL, ih (t + 1)]
        constructor
        · rintro ⟨j, hj, hchk, htc, hpreJ⟩
          rw [particleAfter_add, show j + 1 + 10 = (j + 10) + 1 from by omega] at hchk
          refine ⟨j + 10, by omega, hchk, by omega, ?_⟩
          intro j' hj'
          by_cases hcase : j' < 10
          · exact hpre j' hcase
          · have := hpreJ (j' - 10) (by omega)
            rw [particleAfter_add, show j' - 10 + 1 + 10 = j' + 1 from by omega] at this
            exact this
        · rintro ⟨J, hJ, hchk, htc, hpre2⟩
          have hJS : 10 ≤ J := by
            by_contra hlt
            exact absurd ((hpre J (by omega)).symm.trans hchk) (by simp)
          refine ⟨J - 10, by omega, ?_, by omega, ?_⟩
          · rw [particleAfter_add, show J - 10 + 1 + 10 = J + 1 from by omega]
            exact hchk
          · intro j' hj'
            have := hpre2 (j' + 10) (by omega)
            rw [show j' + 10 + 1 = (j' + 1) + 10 from by omega, ← particleAfter_add] at this
            exact this

theorem runOuterAuxSimple_eq (m : IntegrationMethod) (B : List StationaryBody)
    (dt : ℝ) (n : ℕ) (t : ℕ) (p : TestParticle) :
    runOuterAuxSimple m B dt n p = (runOuterAux m B dt n t p).map Prod.fst := by
  induction n generalizing t p with
  | zero => rfl
  | succ n ih =>
    cases hr : runSubstepsAux m B dt SUBSTEPS p with
    | mk q r =>
      cases r with
      | some i =>
        simp only [runOuterAuxSimple, runOuterAux]
        rw [hr]
        rfl
      | none =>
        simp only [runOuterAuxSimple, runOuterAux]
        rw [hr]
        exact ih (t + 1) q

/-! Force, acceleration and integrator lemmas. -/

theorem calculate_gravitational_force_of_mass_zero (p : TestParticle) (b : StationaryBody)
    (h : b.mass = 0) : calculate_gravitational_force p b = ⟨0, 0⟩ := by
  simp only [calculate_gravitational_force]
  by_cases hd : (b.pos - p.pos).length = 0
  · rw [if_pos hd]
  · rw [if_neg hd]
    apply Vec2.ext <;> simp [h]

theorem foldl_force_zero (p : TestParticle) :
    ∀ (B : List StationaryBody), (∀ b ∈ B, b.mass = 0) → ∀ acc : Vec2,
      B.foldl (fun total_force body => total_force + calculate_gravitational_force p body)
        acc = acc
  | [], _, _ => rfl
  | b :: rest, hall, acc => by
    simp only [List.foldl_cons]
    rw [calculate_gravitational_force_of_mass_zero p b (hall b (by simp))]
    rw [show acc + (⟨0, 0⟩ : Vec2) = acc from by apply Vec2.ext <;> simp]
    exact foldl_force_zero p rest (fun b' hb' => hall b' (by simp [hb'])) acc

theorem calculate_acceleration_zero (p : TestParticle) (B : List StationaryBody)
    (h : B = [] ∨ ∀ b ∈ B, b.mass = 0) : calculate_acceleration p B = ⟨0, 0⟩ := by
  simp only [calculate_acceleration]
  rcases h with rfl | hall
  · apply Vec2.ext <;> simp
  · rw [foldl_force_zero p B hall]
    apply Vec2.ext <;> simp

theorem update_particle_euler_zero_accel (p : TestParticle) (B : List StationaryBody)
    (dt : ℝ) (h : calculate_acceleration p B = ⟨0, 0⟩) :
    update_particle_euler p B dt = { p with pos := p.pos + Vec2.smul p.vel dt } := by
  simp only [update_particle_euler, h]
  apply TestParticle.ext
  · apply Vec2.ext <;> simp
  · apply Vec2.ext <;> simp
  · rfl
  · rfl

theorem update_particle_rk4_zero_accel (p : TestParticle) (B : List StationaryBody)
    (dt : ℝ) (h : ∀ q : TestParticle, calculate_acceleration q B = ⟨0, 0⟩) :
    update_particle_rk4 p B dt = { p with pos := p.pos + Vec2.smul p.vel dt } := by
  simp only [update_particle_rk4, h]
  apply TestParticle.ext
  · apply Vec2.ext <;> simp <;> ring
  · apply Vec2.ext <;> simp
  · rfl
  · rfl

theorem smul_normalize_length (v : Vec2) (c : ℝ) (hv : v.length ≠ 0) (hc : 0 ≤ c) :
    (Vec2.smul v.normalize c).length = c := by
  have hvz : v ≠ ⟨0, 0⟩ := fun h0 => hv (by rw [h0]; exact Vec2.length_zero)
  rw [Vec2.length_smul, Vec2.length_normalize v hvz, mul_one, abs_of_nonneg hc]

/-! Live replay state lemmas. -/

theorem LiveSimulationState.step_stuck (s : LiveSimulationState)
    (h : ¬(s.current_timestep < SIMULATION_TIMESTEPS ∧ s.collision_body_index = none)) :
    s.step = s := by
  unfold LiveSimulationState.step
  rw [if_neg h]

theorem LiveSimulationState.iterate_stuck (n : ℕ) (s : LiveSimulationState)
    (h : ¬(s.current_timestep < SIMULATION_TIMESTEPS ∧ s.collision_body_index = none)) :
    LiveSimulationState.step^[n] s = s := by
  induction n with
  | zero => rfl
  | succ n ih => rw [Function.iterate_succ_apply, LiveSimulationState.step_stuck s h, ih]

theorem LiveSimulationState.step_active (s : LiveSimulationState)
    (h1 : s.current_timestep < SIMULATION_TIMESTEPS) (h2 : s.collision_body_index = none) :
    s.step = { s with
      particle :=
        (runSubstepsAux s.integration_method s.stationary_bodies simDt SUBSTEPS s.particle).1,
      collision_body_index :=
        (runSubstepsAux s.integration_method s.stationary_bodies simDt SUBSTEPS s.particle).2,
      trajectory_history :=
        if s.current_timestep % 5 = 0
        then s.trajectory_history ++
          [(runSubstepsAux s.integration_method s.stationary_bodies simDt SUBSTEPS s.particle).1.pos]
        else s.trajectory_history,
      current_timestep := s.current_timestep + 1 } := by
  unfold LiveSimulationState.step
  rw [if_pos ⟨h1, h2⟩]

/-- Iterating the live step from an unfinished state tracks the batch outer
loop: the recorded collision index is the loop's, and the final timestep
counter is one past the collision timestep (or the full budget). -/
theorem iterate_step_spec (n : ℕ) (s : LiveSimulationState)
    (hcol : s.collision_body_index = none)
    (ht : s.current_timestep + n = SIMULATION_TIMESTEPS) :
    (LiveSimulationState.step^[n] s).collision_body_index =
      (runOuterAux s.integration_method s.stationary_bodies simDt n
        s.current_timestep s.particle).map Prod.fst ∧
    (LiveSimulationState.step^[n] s).current_timestep =
      (match runOuterAux s.integration_method s.stationary_bodies simDt n
          s.current_timestep s.particle with
       | some (_, tcol) => tcol + 1
       | none => SIMULATION_TIMESTEPS) := by
  induction n generalizing s with
  | zero =>
    simp only [Function.iterate_zero_apply, runOuterAux, Option.map_none']
    exact ⟨hcol, by omega⟩
  | succ n ih =>
    have h1 : s.current_timestep < SIMULATION_TIMESTEPS := by omega
    have hstep := LiveSimulationState.step_active s h1 hcol
    rw [Function.iterate_succ_apply]
    cases hr : runSubstepsAux s.integration_method s.stationary_bodies simDt SUBSTEPS
        s.particle with
    | mk q r =>
      rw [hr] at hstep
      cases r with
      | some i =>
        have hfix : LiveSimulationState.step^[n] s.step = s.step :=
          LiveSimulationState.iterate_stuck n s.step (by rw [hstep]; simp)
        have hL : runOuterAux s.integration_method s.stationary_bodies simDt (n + 1)
            s.current_timestep s.particle = some (i, s.current_timestep) := by
          simp only [runOuterAux]
          rw [hr]
        rw [hfix, hstep, hL]
        simp
      | none =>
        have hs' : s.step.collision_body_index = none := by rw [hstep]
        have hts : s.step.current_timestep = s.current_timestep + 1 := by rw [hstep]
        have him : s.step.integration_method = s.integration_method := by rw [hstep]
        have hbod : s.step.stationary_bodies = s.stationary_bodies := by rw [hstep]
        have hpar : s.step.particle = q := by rw [hstep]
        have hsum : s.step.current_timestep + n = SIMULATION_TIMESTEPS := by
          rw [hts]; omega
        have hmain := ih s.step hs' hsum
        rw [hts, him, hbod, hpar] at hmain
        have hL : runOuterAux s.integration_method s.stationary_bodies simDt (n + 1)
            s.current_timestep s.particle
            = runOuterAux s.integration_method s.stationary_bodies simDt n
              (s.current_timestep + 1) q := by
          simp only [runOuterAux]
          rw [hr]
        rw [hL]
        exact hmain

/-- A concrete end-to-end run: a particle starting at the center of a
zero-mass well collides with it at the first substep of outer timestep 0. -/
theorem run_simulation_with_time_concrete :
    run_simulation_with_time ⟨0, 0⟩ ⟨0, 0⟩ [⟨⟨0, 0⟩, 0, 1, (0, 0, 0)⟩] .euler
      = some (0, 0) := by
  have hacc : calculate_acceleration (mkTestParticle ⟨0, 0⟩ ⟨0, 0⟩)
      [⟨⟨0, 0⟩, 0, 1, (0, 0, 0)⟩] = ⟨0, 0⟩ :=
    calculate_acceleration_zero _ _ (Or.inr (by simp))
  have hstep : applyIntegration .euler (mkTestParticle ⟨0, 0⟩ ⟨0, 0⟩)
      [⟨⟨0, 0⟩, 0, 1, (0, 0, 0)⟩] simDt = mkTestParticle ⟨0, 0⟩ ⟨0, 0⟩ := by
    show update_particle_euler _ _ _ = _
    rw [update_particle_euler_zero_accel _ _ _ hacc]
    apply TestParticle.ext
    · apply Vec2.ext <;> simp [mkTestParticle]
    · rfl
    · rfl
    · rfl
  have hchk : check_collision (mkTestParticle ⟨0, 0⟩ ⟨0, 0⟩)
      [⟨⟨0, 0⟩, 0, 1, (0, 0, 0)⟩] COLLISION_THRESHOLD = some 0 := by
    have hd : (mkTestParticle ⟨0, 0⟩ ⟨0, 0⟩).pos.distance
        (⟨⟨0, 0⟩, 0, 1, (0, 0, 0)⟩ : StationaryBody).pos < COLLISION_THRESHOLD := by
      norm_num [mkTestParticle, COLLISION_THRESHOLD]
    simp [check_collision, hd]
  have hsub : runSubstepsAux .euler [⟨⟨0, 0⟩, 0, 1, (0, 0, 0)⟩] simDt SUBSTEPS
      (mkTestParticle ⟨0, 0⟩ ⟨0, 0⟩) = (mkTestParticle ⟨0, 0⟩ ⟨0, 0⟩, some 0) := by
    rw [show SUBSTEPS = 9 + 1 from rfl]
    simp only [runSubstepsAux]
    rw [hstep, hchk]
  have houter : runOuterAux .euler [⟨⟨0, 0⟩, 0, 1, (0, 0, 0)⟩] simDt (1999 + 1) 0
      (mkTestParticle ⟨0, 0⟩ ⟨0, 0⟩) =
        match runSubstepsAux .euler [⟨⟨0, 0⟩, 0, 1, (0, 0, 0)⟩] simDt SUBSTEPS
          (mkTestParticle ⟨0, 0⟩ ⟨0, 0⟩) with
        | (_, some i) => some (i, 0)
        | (q, none) => runOuterAux .euler [⟨⟨0, 0⟩, 0, 1, (0, 0, 0)⟩] simDt 1999 1 q := rfl
  show runOuterAux .euler [⟨⟨0, 0⟩, 0, 1, (0, 0, 0)⟩] simDt SIMULATION_TIMESTEPS 0
    (mkTestParticle ⟨0, 0⟩ ⟨0, 0⟩) = some (0, 0)
  rw [show SIMULATION_TIMESTEPS = 1999 + 1 from rfl, houter, hsub]

/-! Claim theorems. -/

/-- C1: `run_simulation_with_time` runs at most 2000 outer timesteps of 10
substeps each at `dt = 0.016/10`; it tests collision after each individual
substep of the run, returns `some (body index, outer timestep index)` for
the first substep whose post-integration state collides (the outer index is
the substep's global index divided by 10, so later substeps of that outer
timestep are never consulted), and returns `none` exactly when no substep in
the whole 20000-substep budget collides. -/
theorem C1_run_with_time_first_collision (s v : Vec2) (B : List StationaryBody)
    (m : IntegrationMethod) :
    (∀ i t, run_simulation_with_time s v B m = some (i, t) ↔
      ∃ j, j < SIMULATION_TIMESTEPS * SUBSTEPS ∧
        check_collision (traceParticle s v B m (j + 1)) B COLLISION_THRESHOLD = some i ∧
        t = j / SUBSTEPS ∧
        ∀ j', j' < j →
          check_collision (traceParticle s v B m (j' + 1)) B COLLISION_THRESHOLD = none) ∧
    (run_simulation_with_time s v B m = none ↔
      ∀ j, j < SIMULATION_TIMESTEPS * SUBSTEPS →
        check_collision (traceParticle s v B m (j + 1)) B COLLISION_THRESHOLD = none) := by
  constructor
  · intro i t
    have h := runOuterAux_eq_some_iff m B simDt SIMULATION_TIMESTEPS 0 (mkTestParticle s v) i t
    simp only [zero_add] at h
    simp only [run_simulation_with_time, traceParticle]
    exact h
  · have h := runOuterAux_eq_none_iff m B simDt SIMULATION_TIMESTEPS 0 (mkTestParticle s v)
    simp only [run_simulation_with_time, traceParticle]
    exact h

/-- C2: driving `LiveSimulationState.step` to exhaustion reproduces the
batch outcome: the recorded collision index equals `run_simulation`'s result
(`none` in both when there is no collision), `run_simulation` agrees with
the body index of `run_simulation_with_time`, and the final live timestep
counter is one past the outer timestep `run_simulation_with_time` reports
(or the full 2000 budget when there is no collision). -/
theorem C2_live_replay_refines_batch (s v : Vec2) (B : List StationaryBody)
    (m : IntegrationMethod) :
    (LiveSimulationState.step^[SIMULATION_TIMESTEPS]
      (LiveSimulationState.new s v B m)).is_finished = true ∧
    (LiveSimulationState.step^[SIMULATION_TIMESTEPS]
      (LiveSimulationState.new s v B m)).collision_body_index = run_simulation s v B m ∧
    (run_simulation_with_time s v B m).map Prod.fst = run_simulation s v B m ∧
    (LiveSimulationState.step^[SIMULATION_TIMESTEPS]
      (LiveSimulationState.new s v B m)).current_timestep
      = match run_simulation_with_time s v B m with
        | some (_, tcol) => tcol + 1
        | none => SIMULATION_TIMESTEPS := by
  have hspec := iterate_step_spec SIMULATION_TIMESTEPS (LiveSimulationState.new s v B m)
    rfl (by simp [LiveSimulationState.new])
  simp only [LiveSimulationState.new] at hspec
  simp only [LiveSimulationState.new]
  obtain ⟨hcol, htime⟩ := hspec
  have hwt : run_simulation_with_time s v B m
      = runOuterAux m B simDt SIMULATION_TIMESTEPS 0 (mkTestParticle s v) := rfl
  have hsimple : run_simulation s v B m
      = (runOuterAux m B simDt SIMULATION_TIMESTEPS 0 (mkTestParticle s v)).map Prod.fst :=
    runOuterAuxSimple_eq m B simDt SIMULATION_TIMESTEPS 0 (mkTestParticle s v)
  refine ⟨?_, ?_, ?_, ?_⟩
  · unfold LiveSimulationState.is_finished
    rw [hcol, htime]
    cases hout : runOuterAux m B simDt SIMULATION_TIMESTEPS 0 (mkTestParticle s v) with
    | none => simp
    | some it => simp
  · rw [hcol, hsimple]
  · rw [hwt, hsimple]
  · rw [htime, hwt]

/-- C3: every cell of the batch sweep equals the direct single-run
invocation on that cell's initial condition, and this per-cell value is
independent of the enumeration order in which cells are evaluated. -/
theorem C3_sweep_cell_eq_direct_run (B : List StationaryBody) (v cam : Vec2) (zoom : ℝ)
    (m : IntegrationMethod) (i : ℕ) (h : i < IMAGE_SIZE * IMAGE_SIZE) :
    (sweepOutcomes B v cam zoom m)[i]? =
      some (run_simulation_with_time (pixelWorldPos i zoom cam) v B m) ∧
    ∀ (order : List ℕ) (k : ℕ) (hk : k < order.length),
      (order.map fun j => run_simulation_with_time (pixelWorldPos j zoom cam) v B m)[k]? =
        some (run_simulation_with_time (pixelWorldPos (order.get ⟨k, hk⟩) zoom cam) v B m) := by
  constructor
  · unfold sweepOutcomes
    rw [List.getElem?_map, List.getElem?_range h]
    rfl
  · intro order k hk
    rw [List.getElem?_map, List.getElem?_eq_getElem hk]
    rfl

/-- C3 witness: the sweep's first cell equals the direct run on its world
position. -/
theorem C3_witness :
    (sweepOutcomes [] ⟨0, 0⟩ ⟨0, 0⟩ 1 .euler)[0]? =
      some (run_simulation_with_time (pixelWorldPos 0 1 ⟨0, 0⟩) ⟨0, 0⟩ [] .euler) :=
  (C3_sweep_cell_eq_direct_run [] ⟨0, 0⟩ ⟨0, 0⟩ 1 .euler 0
    (by norm_num [IMAGE_SIZE])).1

/-- C9: a collision index returned by `check_collision` is a valid index
into the body list, and a `some (i, t)` outcome of
`run_simulation_with_time` satisfies `i < stationary_bodies.length` and
`t < SIMULATION_TIMESTEPS`, so the sweep's `stationary_bodies[i]` lookup is
always in bounds. -/
theorem C9_indices_in_bounds (p : TestParticle) (B : List StationaryBody) (thr : ℝ)
    (s v : Vec2) (m : IntegrationMethod) :
    (∀ i, check_collision p B thr = some i → i < B.length) ∧
    (∀ i t, run_simulation_with_time s v B m = some (i, t) →
      i < B.length ∧ t < SIMULATION_TIMESTEPS) := by
  refine ⟨fun i h => check_collision_some_lt p B thr i h, ?_⟩
  intro i t h
  have h' : runOuterAux m B simDt SIMULATION_TIMESTEPS 0 (mkTestParticle s v)
      = some (i, t) := h
  rcases (runOuterAux_eq_some_iff m B simDt SIMULATION_TIMESTEPS 0
      (mkTestParticle s v) i t).1 h' with ⟨j, hj, hchk, htc, -⟩
  refine ⟨check_collision_some_lt _ B COLLISION_THRESHOLD i hchk, ?_⟩
  simp only [SIMULATION_TIMESTEPS, SUBSTEPS] at hj htc ⊢
  omega

/-- C4: `check_collision` returns `some i` exactly when `i` is the smallest
list index whose body's center-to-center distance from the particle is
strictly below the threshold, and `none` exactly when no body in the list is
below the threshold. -/
theorem C4_check_collision_first (p : TestParticle) (B : List StationaryBody) (thr : ℝ) :
    (∀ i, check_collision p B thr = some i ↔
      (∃ b, B[i]? = some b ∧ p.pos.distance b.pos < thr) ∧
      ∀ j, j < i → ∀ b, B[j]? = some b → ¬ p.pos.distance b.pos < thr) ∧
    (check_collision p B thr = none ↔ ∀ b ∈ B, ¬ p.pos.distance b.pos < thr) :=
  ⟨fun i => check_collision_some_iff p B thr i, check_collision_none_iff p B thr⟩

/-- C5 counterexample: with two wells both at the origin and the particle at
the center of well 1 (threshold 1 > 0), `check_collision` reports index 0,
not the index 1 of the claim. -/
theorem C5_counterexample_first_index :
    check_collision ⟨⟨0, 0⟩, ⟨0, 0⟩, 1, 1⟩
      [⟨⟨0, 0⟩, 1, 1, (0, 0, 0)⟩, ⟨⟨0, 0⟩, 1, 1, (0, 0, 0)⟩] 1 = some 0 ∧
    (⟨⟨0, 0⟩, ⟨0, 0⟩, 1, 1⟩ : TestParticle).pos =
      (([⟨⟨0, 0⟩, 1, 1, (0, 0, 0)⟩, ⟨⟨0, 0⟩, 1, 1, (0, 0, 0)⟩] :
        List StationaryBody).get ⟨1, by simp⟩).pos ∧
    (0 : ℝ) < 1 ∧
    check_collision ⟨⟨0, 0⟩, ⟨0, 0⟩, 1, 1⟩
      [⟨⟨0, 0⟩, 1, 1, (0, 0, 0)⟩, ⟨⟨0, 0⟩, 1, 1, (0, 0, 0)⟩] 1 ≠ some 1 := by
  have h01 : (⟨⟨0, 0⟩, ⟨0, 0⟩, 1, 1⟩ : TestParticle).pos.distance
      (⟨⟨0, 0⟩, 1, 1, (0, 0, 0)⟩ : StationaryBody).pos < 1 := by
    simp
  have hchk : check_collision ⟨⟨0, 0⟩, ⟨0, 0⟩, 1, 1⟩
      [⟨⟨0, 0⟩, 1, 1, (0, 0, 0)⟩, ⟨⟨0, 0⟩, 1, 1, (0, 0, 0)⟩] 1 = some 0 := by
    simp [check_collision, h01]
  refine ⟨hchk, rfl, by norm_num, ?_⟩
  rw [hchk]
  simp

/-- C5 (amended): a particle at the center of well `j` with a positive
threshold makes `check_collision` report a collision, against the first
index within the threshold, which is at most `j` and is exactly `j` when no
earlier-indexed well is within the threshold; and a particle strictly
farther than the threshold from every well reports no collision. -/
theorem C5_center_hit_and_far_miss (B : List StationaryBody) (thr : ℝ) (p : TestParticle)
    (j : ℕ) (hj : j < B.length) (hthr : 0 < thr)
    (hp : p.pos = (B.get ⟨j, hj⟩).pos) :
    (∃ i, i ≤ j ∧ check_collision p B thr = some i) ∧
    ((∀ k, k < j → ∀ b, B[k]? = some b → ¬ p.pos.distance b.pos < thr) →
      check_collision p B thr = some j) ∧
    (∀ q : TestParticle, (∀ b ∈ B, thr < q.pos.distance b.pos) →
      check_collision q B thr = none) := by
  have hdj : p.pos.distance (B.get ⟨j, hj⟩).pos < thr := by
    rw [hp]
    simpa using hthr
  have hne : check_collision p B thr ≠ none := by
    intro h0
    exact absurd hdj
      (((check_collision_none_iff p B thr).1 h0) (B.get ⟨j, hj⟩) (List.get_mem B j hj))
  rcases Option.ne_none_iff_exists'.1 hne with ⟨i, hi⟩
  rcases (check_collision_some_iff p B thr i).1 hi with ⟨⟨b', hb', hd'⟩, hmin⟩
  have hij : i ≤ j := by
    by_contra hgt
    push_neg at hgt
    exact hmin j hgt (B.get ⟨j, hj⟩) (List.getElem?_eq_getElem hj) hdj
  refine ⟨⟨i, hij, hi⟩, ?_, ?_⟩
  · intro hnoearly
    rcases Nat.lt_or_ge i j with hlt | hge
    · exact absurd hd' (hnoearly i hlt b' hb')
    · have : i = j := Nat.le_antisymm hij hge
      rw [← this]
      exact hi
  · intro q hall
    rw [check_collision_none_iff]
    intro b hb
    exact fun hd => absurd (hall b hb) (by push_neg; exact le_of_lt hd)

/-- C5 witness: the amended theorem applied at one well at the origin, the
particle at its center, threshold 1. -/
theorem C5_witness :
    0 < ([⟨⟨0, 0⟩, 1, 1, (0, 0, 0)⟩] : List StationaryBody).length ∧
    (0 : ℝ) < 1 ∧
    (∃ i, i ≤ 0 ∧
      check_collision ⟨⟨0, 0⟩, ⟨0, 0⟩, 1, 1⟩ [⟨⟨0, 0⟩, 1, 1, (0, 0, 0)⟩] 1 = some i) :=
  ⟨by simp, by norm_num,
    (C5_center_hit_and_far_miss [⟨⟨0, 0⟩, 1, 1, (0, 0, 0)⟩] 1 ⟨⟨0, 0⟩, ⟨0, 0⟩, 1, 1⟩ 0
      (by simp) (by norm_num) rfl).1⟩

/-- C6: the gravitational force is exactly the zero vector at zero
separation, and otherwise equals the unit vector from the particle toward
the body scaled by `G * m_source * m_target / dist²`, which is also its
length; proved for the wells force of `physics.rs` (`G = 100`) and the
three-body force of `example/lib.rs` (`G = 1`), for the data model's
nonnegative masses. -/
theorem C6_grav_force_law (p : TestParticle) (b : StationaryBody)
    (g1 g2 : ThreeBody.GravBody)
    (hm : 0 ≤ p.mass) (hM : 0 ≤ b.mass) (hg1 : 0 ≤ g1.mass) (hg2 : 0 ≤ g2.mass) :
    ((b.pos - p.pos).length = 0 → calculate_gravitational_force p b = ⟨0, 0⟩) ∧
    ((b.pos - p.pos).length ≠ 0 →
      calculate_gravitational_force p b =
        Vec2.smul (b.pos - p.pos).normalize
          (G * p.mass * b.mass / ((b.pos - p.pos).length * (b.pos - p.pos).length)) ∧
      (calculate_gravitational_force p b).length =
        G * p.mass * b.mass / ((b.pos - p.pos).length * (b.pos - p.pos).length)) ∧
    ((g2.pos - g1.pos).length = 0 → ThreeBody.GravBody.grav_force g1 g2 = ⟨0, 0⟩) ∧
    ((g2.pos - g1.pos).length ≠ 0 →
      ThreeBody.GravBody.grav_force g1 g2 =
        Vec2.smul (g2.pos - g1.pos).normalize
          (ThreeBody.G * g1.mass * g2.mass /
            ((g2.pos - g1.pos).length * (g2.pos - g1.pos).length)) ∧
      (ThreeBody.GravBody.grav_force g1 g2).length =
        ThreeBody.G * g1.mass * g2.mass /
          ((g2.pos - g1.pos).length * (g2.pos - g1.pos).length)) := by
  refine ⟨?_, ?_, ?_, ?_⟩
  · intro hd
    simp only [calculate_gravitational_force]
    rw [if_pos hd]
  · intro hd
    have hform : calculate_gravitational_force p b =
        Vec2.smul (b.pos - p.pos).normalize
          (G * p.mass * b.mass / ((b.pos - p.pos).length * (b.pos - p.pos).length)) := by
      simp only [calculate_gravitational_force]
      rw [if_neg hd]
    refine ⟨hform, ?_⟩
    rw [hform]
    exact smul_normalize_length _ _ hd
      (div_nonneg (mul_nonneg (mul_nonneg (by norm_num [G]) hm) hM) (mul_self_nonneg _))
  · intro hd
    simp only [ThreeBody.GravBody.grav_force]
    rw [if_pos hd]
  · intro hd
    have hform : ThreeBody.GravBody.grav_force g1 g2 =
        Vec2.smul (g2.pos - g1.pos).normalize
          (ThreeBody.G * g1.mass * g2.mass /
            ((g2.pos - g1.pos).length * (g2.pos - g1.pos).length)) := by
      simp only [ThreeBody.GravBody.grav_force]
      rw [if_neg hd]
    refine ⟨hform, ?_⟩
    rw [hform]
    exact smul_normalize_length _ _ hd
      (div_nonneg (mul_nonneg (mul_nonneg (by norm_num [ThreeBody.G]) hg1) hg2)
        (mul_self_nonneg _))

/-- C6 witness: the force law applied at concrete bodies with nonnegative
masses; the zero-separation branch is taken at coincident positions. -/
theorem C6_witness :
    (0 : ℝ) ≤ (⟨⟨0, 0⟩, ⟨0, 0⟩, 1, 1⟩ : TestParticle).mass ∧
    (0 : ℝ) ≤ (⟨⟨0, 0⟩, 2, 1, (0, 0, 0)⟩ : StationaryBody).mass ∧
    (((⟨⟨0, 0⟩, 2, 1, (0, 0, 0)⟩ : StationaryBody).pos -
        (⟨⟨0, 0⟩, ⟨0, 0⟩, 1, 1⟩ : TestParticle).pos).length = 0 →
      calculate_gravitational_force ⟨⟨0, 0⟩, ⟨0, 0⟩, 1, 1⟩ ⟨⟨0, 0⟩, 2, 1, (0, 0, 0)⟩
        = ⟨0, 0⟩) :=
  ⟨by norm_num, by norm_num,
    (C6_grav_force_law ⟨⟨0, 0⟩, ⟨0, 0⟩, 1, 1⟩ ⟨⟨0, 0⟩, 2, 1, (0, 0, 0)⟩
      ⟨⟨0, 0⟩, ⟨0, 0⟩, 1, 1⟩ ⟨⟨0, 0⟩, ⟨0, 0⟩, 1, 1⟩
      (by norm_num) (by norm_num) (by norm_num) (by norm_num)).1⟩

/-- C7: `normalize` is total: the zero vector normalizes to the zero vector,
and the length of `v.normalize` is 0 exactly when `v` is the zero vector and
is exactly 1 otherwise (the exact-real counterpart of "within floating-point
tolerance of 1"). -/
theorem C7_normalize_total :
    Vec2.normalize ⟨0, 0⟩ = ⟨0, 0⟩ ∧
    ∀ v : Vec2, (v.normalize.length = 0 ↔ v = ⟨0, 0⟩) ∧
      (v ≠ ⟨0, 0⟩ → v.normalize.length = 1) := by
  refine ⟨Vec2.normalize_zero, fun v => ⟨⟨?_, ?_⟩, fun hv => Vec2.length_normalize v hv⟩⟩
  · intro h
    by_contra hv
    rw [Vec2.length_normalize v hv] at h
    norm_num at h
  · rintro rfl
    rw [Vec2.normalize_zero]
    exact Vec2.length_zero

/-- C8: with zero net acceleration (no bodies, or all masses zero), one Euler
step and one RK4 step leave the velocity unchanged and move the position in
a straight line `pos + vel * dt`. -/
theorem C8_zero_accel_straight_line (p : TestParticle) (B : List StationaryBody) (dt : ℝ)
    (h : B = [] ∨ ∀ b ∈ B, b.mass = 0) :
    (update_particle_euler p B dt).vel = p.vel ∧
    (update_particle_euler p B dt).pos = p.pos + Vec2.smul p.vel dt ∧
    (update_particle_rk4 p B dt).vel = p.vel ∧
    (update_particle_rk4 p B dt).pos = p.pos + Vec2.smul p.vel dt := by
  have ha : ∀ q : TestParticle, calculate_acceleration q B = ⟨0, 0⟩ :=
    fun q => calculate_acceleration_zero q B h
  rw [update_particle_euler_zero_accel p B dt (ha p), update_particle_rk4_zero_accel p B dt ha]
  exact ⟨rfl, rfl, rfl, rfl⟩

/-- C8 witness: the straight-line law applied to a concrete particle with an
empty body list. -/
theorem C8_witness :
    (([] : List StationaryBody) = [] ∨ ∀ b ∈ ([] : List StationaryBody), b.mass = 0) ∧
    (update_particle_euler ⟨⟨1, 2⟩, ⟨3, 4⟩, 5, 6⟩ [] 7).vel =
      (⟨⟨1, 2⟩, ⟨3, 4⟩, 5, 6⟩ : TestParticle).vel ∧
    (update_particle_euler ⟨⟨1, 2⟩, ⟨3, 4⟩, 5, 6⟩ [] 7).pos =
      (⟨⟨1, 2⟩, ⟨3, 4⟩, 5, 6⟩ : TestParticle).pos +
        Vec2.smul (⟨⟨1, 2⟩, ⟨3, 4⟩, 5, 6⟩ : TestParticle).vel 7 ∧
    (update_particle_rk4 ⟨⟨1, 2⟩, ⟨3, 4⟩, 5, 6⟩ [] 7).vel =
      (⟨⟨1, 2⟩, ⟨3, 4⟩, 5, 6⟩ : TestParticle).vel ∧
    (update_particle_rk4 ⟨⟨1, 2⟩, ⟨3, 4⟩, 5, 6⟩ [] 7).pos =
      (⟨⟨1, 2⟩, ⟨3, 4⟩, 5, 6⟩ : TestParticle).pos +
        Vec2.smul (⟨⟨1, 2⟩, ⟨3, 4⟩, 5, 6⟩ : TestParticle).vel 7 :=
  ⟨Or.inl rfl, C8_zero_accel_straight_line ⟨⟨1, 2⟩, ⟨3, 4⟩, 5, 6⟩ [] 7 (Or.inl rfl)⟩

/-- C10: once `is_finished` holds (collision recorded or the 2000-timestep
budget elapsed), `step` leaves the whole state unchanged: particle,
trajectory history, timestep counter and collision index. -/
theorem C10_step_noop_after_finish (s : LiveSimulationState) (h : s.is_finished = true) :
    s.step = s := by
  apply LiveSimulationState.step_stuck
  rintro ⟨h1, h2⟩
  unfold LiveSimulationState.is_finished at h
  rw [h2] at h
  simp at h
  omega

/-- C10 witness: a state at the full timestep budget is finished and
stepping it changes nothing. -/
theorem C10_witness :
    (LiveSimulationState.mk ⟨⟨0, 0⟩, ⟨0, 0⟩, 1, 1⟩ [] [] 2000 none .euler).is_finished
      = true ∧
    (LiveSimulationState.mk ⟨⟨0, 0⟩, ⟨0, 0⟩, 1, 1⟩ [] [] 2000 none .euler).step
      = LiveSimulationState.mk ⟨⟨0, 0⟩, ⟨0, 0⟩, 1, 1⟩ [] [] 2000 none .euler :=
  ⟨rfl, C10_step_noop_after_finish _ rfl⟩

end GravityWells
